import Mathlib

/-!
Verification of the golte repository's call-automation and audio-pipeline core.

Shallow embedding of:
* the DTMF password state machine (`ModemManager.Initialize`, machine package);
* the CLCC call-status parser (`parseCallStatus`, call package);
* the startup prompt cache (`PredecodedCache.loadAllAudio`, assets package);
* call origination (`Call.StartCall`, call package);
* the live PCM streamer (`PCMStreamer`, playback package) and the Opus PCM
  receiver / subprocess player close paths (ffmpeg package).

External collaborators (the AT transport, the mp3 decoder, the embedded
filesystem, Go channels) are modelled as explicit oracle arguments or as small
explicit state structures; Go float64 sample arithmetic is modelled over the
exact rationals, which is faithful for every property proved here since none
depends on rounding.
-/

namespace Golte
/-! ## DTMF password state machine

Source: machine package, `ModemManager.Initialize`.  The mutable state is the
`ModemState.password` string.  The DTMF closure resets the state on a `"#"`
digit; otherwise it schedules the spoken-digit prompt, appends the digit, and
schedules the success prompt whenever the buffer equals the fixed target. -/
def targetPassword : String := "52226636"


def successPrompt : String := "audio/mot_de_passe_correct.mp3"


def welcomePrompt : String := "audio/bonjour_veuillez_entrez_votre_mot_de_passe.mp3"


/-- One DTMF digit event: returns the new password buffer and the list of
prompts scheduled by the handler, in scheduling order. -/
def dtmfStep (password digit : String) : String × List String :=
  if digit = "#" then ("", [])
  else
    let p := password ++ digit
    (p, ("audio/" ++ digit ++ ".mp3") :: (if p = targetPassword then [successPrompt] else []))


/-- Run a sequence of DTMF digit events from a given buffer, accumulating all
scheduled prompts in order. -/
def dtmfRun (password : String) (digits : List String) : String × List String :=
  digits.foldl
    (fun acc d =>
      let r := dtmfStep acc.1 d
      (r.1, acc.2 ++ r.2))
    (password, [])


/-- Events that touch the `ModemState` password buffer: the incoming-call
closure replaces the state with `NewState()` (empty buffer), and the DTMF
closure performs `dtmfStep`. -/
inductive ModemEvent where
  | incomingCall
  | dtmf (digit : String)
deriving Repr, DecidableEq


/-- Effect of one modem event on the password buffer. -/
def modemStep (password : String) (e : ModemEvent) : String :=
  match e with
  | .incomingCall => ""
  | .dtmf d => (dtmfStep password d).1


def digitSeq : List String := ["5", "2", "2", "2", "6", "6", "3", "6"]


/-! ## CLCC call-status parsing

Source: call package, `parseCallStatus`.  The Go string helpers are embedded
as structurally recursive functions over the character list of a `String`,
so that everything evaluates inside the kernel:
* `goTrimSpace` models strings.TrimSpace (ASCII whitespace; no claim involves
  non-ASCII space characters);
* `goSplit` models strings.Split with the one-character separator used here;
* `trimInfoHeader` models the external `info.TrimPrefix(line, hdr)`, which
  removes a leading "hdr:" marker and trims surrounding space;
* `atoi?` models strconv.Atoi over unbounded `Int` (the 64-bit range error of
  Go's Atoi is immaterial to every property proved here). -/
def goIsSpace (c : Char) : Bool :=
  c = ' ' || c = '\t' || c = '\n' || c = '\x0b' || c = '\x0c' || c = '\r'


def goTrimSpace (s : String) : String :=
  ⟨((s.data.dropWhile goIsSpace).reverse.dropWhile goIsSpace).reverse⟩


def splitChar : List Char → Char → List (List Char)
  | [], _ => [[]]
  | c :: cs, sep =>
    if c = sep then [] :: splitChar cs sep
    else
      match splitChar cs sep with
      | [] => [[c]]
      | h :: t => (c :: h) :: t


def goSplit (s : String) (sep : Char) : List String :=
  (splitChar s.data sep).map fun cs => ⟨cs⟩


/-- Field access parts[n]; fields are only read behind the length guard, so
the default is never reached on the paths modelled here. -/
def fieldAt (parts : List String) (n : Nat) : String :=
  parts.getD n ""


def trimInfoHeader (line hdr : String) : String :=
  let p := (hdr ++ ":").data
  goTrimSpace ⟨if p.isPrefixOf line.data then line.data.drop p.length else line.data⟩


/-- Accumulate decimal digits; fails on any non-digit character
(the digit loop inside Go's strconv.Atoi). -/
def digitsVal : List Char → Nat → Option Nat
  | [], acc => some acc
  | c :: cs, acc =>
    if c.isDigit then digitsVal cs (acc * 10 + (c.toNat - 48)) else none


/-- Model of Go's strconv.Atoi: optional sign followed by a nonempty run of
decimal digits. -/
def atoi? (s : String) : Option Int :=
  match s.data with
  | [] => none
  | '+' :: rest => if rest.isEmpty then none else (digitsVal rest 0).map Int.ofNat
  | '-' :: rest => if rest.isEmpty then none else (digitsVal rest 0).map (fun n => -(n : Int))
  | cs => (digitsVal cs 0).map Int.ofNat


/-- Model of Go's strings.Trim(s, "\x22"): remove all leading and trailing
double-quote characters. -/
def trimQuotes (s : String) : String :=
  ⟨((s.data.dropWhile (· = '"')).reverse.dropWhile (· = '"')).reverse⟩


/-- CallStatus record (call package). -/
structure CallStatus where
  Index : Int
  Direction : String
  Status : String
  Mode : String
  Number : String
  -- Go field name: Type (a reserved word in Lean)
  NumType : String
deriving Repr, DecidableEq


/-- Errors returned by parseCallStatus: fewer than 5 comma-separated fields,
or a non-numeric call index. -/
inductive CLCCError where
  | MalformedStatusLine
  | InvalidCallIndex
deriving Repr, DecidableEq


/-- parseCallStatus (call package): parse one +CLCC response line. -/
def parseCallStatus (line : String) : Except CLCCError CallStatus :=
  let parts := goSplit (trimInfoHeader line "+CLCC") ','
  if parts.length < 5 then .error .MalformedStatusLine
  else
    match atoi? (goTrimSpace (fieldAt parts 0)) with
    | none => .error .InvalidCallIndex
    | some idx =>
      let d1 := goTrimSpace (fieldAt parts 1)
      let d2 := goTrimSpace (fieldAt parts 2)
      let d3 := goTrimSpace (fieldAt parts 3)
      .ok
        { Index := idx
          Direction := if d1 = "0" then "MO" else if d1 = "1" then "MT" else "UNKNOWN"
          Status :=
            if d2 = "0" then "ACTIVE" else if d2 = "1" then "HELD"
            else if d2 = "2" then "DIALING" else if d2 = "3" then "ALERTING"
            else if d2 = "4" then "INCOMING" else if d2 = "5" then "WAITING"
            else "UNKNOWN"
          Mode :=
            if d3 = "0" then "VOICE" else if d3 = "1" then "DATA"
            else if d3 = "2" then "FAX" else "UNKNOWN"
          Number := if 5 < parts.length then trimQuotes (goTrimSpace (fieldAt parts 5)) else ""
          NumType := if 6 < parts.length then goTrimSpace (fieldAt parts 6) else "" }


/-! ## Prompt cache startup (assets package)

`PredecodedCache.loadAllAudio` reads the embedded audio directory (fatal via
log.Fatalf when the directory itself cannot be read), then for each non-dir
entry calls `preloadFile`; a preload/decode failure is only logged
(log.Printf) and the loop continues.  The embedded filesystem and the mp3
decoder are external, so they are the oracle arguments `audioDir` (None models
a ReadDir failure) and `decode` (None models an open/decode failure);
the result None models process termination via log.Fatalf. -/
structure DirEntry where
  name : String
  isDir : Bool
deriving Repr, DecidableEq


/-- loadAllAudio: returns the final cache as an association list in load
order, or none when startup is fatal (ReadDir failure). -/
def loadAllAudio {α : Type} (audioDir : Option (List DirEntry))
    (decode : String → Option α) : Option (List (String × α)) :=
  match audioDir with
  | none => none
  | some entries =>
    some ((entries.filter fun e => !e.isDir).filterMap
      (fun e => (decode ("audio/" ++ e.name)).map fun a => ("audio/" ++ e.name, a)))


/-! ## Call origination (call package)

`Call.StartCall` formats the dial command "D<number>;" and issues it through
the embedded AT transport's Command method, returning its error unchanged; it
performs no validation of the number.  The external transport is the oracle
argument `command`. -/

/-- Errors surfaced by the AT transport. -/
inductive ATError where
  | ModemCommandError (msg : String)
deriving Repr, DecidableEq


/-- The dial command string built by StartCall: ATD with a trailing semicolon
for a voice call. -/
def dialCommand (number : String) : String := "D" ++ number ++ ";"


/-- Call.StartCall: issue the dial command and return the transport's result. -/
def StartCall (command : String → Except ATError (List String)) (number : String) :
    Except ATError Unit :=
  match command (dialCommand number) with
  | .error e => .error e
  | .ok _ => .ok ()


/-! ## Live PCM streamer (playback package)

`PCMStreamer.Stream` fills the requested sample slice from the internal
int16 buffer, pulling packets from the `packets` channel when the buffer is
exhausted; the select has no default branch, so with no packet queued and no
close signalled the call suspends.  The channel is modelled by the list of
packets currently available during the pull (`queue`) plus the pending close
signal (`closedSig`); suspension is the explicit outcome `blocked`.  When
both a packet and the close signal are ready, Go's select chooses
nondeterministically; the model prefers the packet branch, which is
irrelevant to every property proved here (the blocked/oob outcomes arise
only when the respective other branch is unavailable).  float64 sample
values are modelled exactly over ℚ.  An out-of-range slice index (the
pcm[pcmIdx+1] access) is the explicit outcome `oob`, Go's runtime panic. -/
structure Packet where
  PCM : List Int
deriving Repr, DecidableEq


/-- SampleRate.N(20ms) stereo samples of silence: 48000 * 20ms * 2 = 1920. -/
def defaultSilence : Packet := ⟨List.replicate 1920 0⟩


structure PCMStreamer where
  silence : Packet
  pcm : List Int
  pcmIdx : Nat
  lastFrame : ℚ × ℚ
  fadeLevel : ℚ
  -- identity of the upstream packet channel (the Go packets chan field)
  packetsId : Nat
  closed : Bool
deriving Repr, DecidableEq


/-- NewPCMStreamer: fresh streamer over a given upstream channel; all other
fields are Go zero values. -/
def NewPCMStreamer (packetsId : Nat) : PCMStreamer :=
  { silence := defaultSilence, pcm := [], pcmIdx := 0, lastFrame := (0, 0),
    fadeLevel := 0, packetsId := packetsId, closed := false }


/-- The inner copy loop of Stream: produce up to `count` stereo samples from
`pcm` starting at `idx`, two int16 samples per output frame, stopping when
`idx` passes the end; returns none when the pcm[idx+1] access falls one past
the end of the buffer (odd-length packet). -/
def copyLoop : List Int → Nat → Nat → Option (List (ℚ × ℚ) × Nat)
  | _, idx, 0 => some ([], idx)
  | pcm, idx, count + 1 =>
    if idx < pcm.length then
      match pcm[idx]?, pcm[idx + 1]? with
      | some l, some r =>
        match copyLoop pcm (idx + 2) count with
        | none => none
        | some (rest, idx') => some (((l : ℚ) / 32767, (r : ℚ) / 32767) :: rest, idx')
      | _, _ => none
    else some ([], idx)


/-- Result of the outer Stream loop.  `closedRet` is the select's closedCh
branch (Go returns 0,false there, though samples already written and packets
already taken keep their effect on the streamer's state); `out` accumulates
the frames written so far, `took` records whether a packet was received. -/
inductive LoopRes where
  | oob
  | blocked
  | closedRet (out : List (ℚ × ℚ)) (pcm : List Int) (pcmIdx : Nat) (took : Bool)
  | done (out : List (ℚ × ℚ)) (pcm : List Int) (pcmIdx : Nat) (queue : List Packet)
      (took : Bool)
deriving Repr, DecidableEq


/-- The outer Stream loop: copy from the current buffer; once exhausted with
samples still owed, receive the next packet from the channel (or observe the
close signal, or suspend when neither is ready). -/
def streamLoop (pcm : List Int) (pcmIdx : Nat) (queue : List Packet)
    (closedSig : Bool) (need : Nat) : LoopRes :=
  match copyLoop pcm pcmIdx need with
  | none => .oob
  | some (out, idx') =>
    if out.length = need then .done out pcm idx' queue false
    else
      match queue with
      | [] => if closedSig then .closedRet out pcm idx' false else .blocked
      | p :: rest =>
        match streamLoop p.PCM 0 rest closedSig (need - out.length) with
        | .oob => .oob
        | .blocked => .blocked
        | .closedRet out2 pcm2 idx2 _ => .closedRet (out ++ out2) pcm2 idx2 true
        | .done out2 pcm2 idx2 q2 _ => .done (out ++ out2) pcm2 idx2 q2 true


/-- Observable outcome of one Stream call: the sample frames written, the ok
flag, the streamer's state after the call and the packets left unread. -/
inductive StreamOutcome where
  | oob
  | blocked
  | ret (out : List (ℚ × ℚ)) (ok : Bool) (s : PCMStreamer) (queue : List Packet)
deriving Repr, DecidableEq


/-- PCMStreamer.Stream for a pull of `need` frames. -/
def PCMStreamer.Stream (s : PCMStreamer) (queue : List Packet) (closedSig : Bool)
    (need : Nat) : StreamOutcome :=
  if s.closed then .ret [] false s queue
  else
    let s1 := if s.fadeLevel = 0 then { s with fadeLevel := 1 } else s
    match streamLoop s1.pcm s1.pcmIdx queue closedSig need with
    | .oob => .oob
    | .blocked => .blocked
    | .closedRet out pcm2 idx2 took =>
      .ret [] false
        { s1 with
          pcm := pcm2, pcmIdx := idx2,
          fadeLevel := if took then 1 else s1.fadeLevel,
          lastFrame := out.getLastD s1.lastFrame } []
    | .done out pcm2 idx2 q2 took =>
      .ret out true
        { s1 with
          pcm := pcm2, pcmIdx := idx2,
          fadeLevel := if took then 1 else s1.fadeLevel,
          lastFrame := out.getLastD s1.lastFrame } q2


/-- PCMStreamer.Close: sets the closed flag; a second call observes the flag
and returns ErrAlreadyClosed.  (The goroutine that feeds closedCh is the
close signal consumed by Stream's select.) -/
inductive StreamerCloseErr where
  | ErrAlreadyClosed
deriving Repr, DecidableEq


def PCMStreamer.Close (s : PCMStreamer) : Except StreamerCloseErr PCMStreamer :=
  if s.closed then .error .ErrAlreadyClosed
  else .ok { s with closed := true }


/-- PCMStreamer.Reopen: copies silence and the packets channel, resets every
other field to its zero value (fresh buffer, fresh cursor, open). -/
def PCMStreamer.Reopen (s : PCMStreamer) : PCMStreamer :=
  { silence := s.silence, pcm := [], pcmIdx := 0, lastFrame := (0, 0),
    fadeLevel := 0, packetsId := s.packetsId, closed := false }


/-! ## Subprocess player and Opus PCM receiver (ffmpeg package) -/

/-- Player state: cmd/stdin non-nilness and whether the context has been
cancelled (Player.Stop's observable effects; the Go method returns nothing
and thus never errors). -/
structure Player where
  cmdActive : Bool
  stdinOpen : Bool
  cancelled : Bool
deriving Repr, DecidableEq


/-- Player.Stop: when a command is active, close stdin, kill the process and
clear both; in all cases cancel the context. -/
def Player.Stop (p : Player) : Player :=
  if p.cmdActive then { cmdActive := false, stdinOpen := false, cancelled := true }
  else { p with cancelled := true }


/-- Go buffered channel of packets (the receiver's Ch, capacity 10). -/
structure PacketChan where
  buf : List Packet
  isClosed : Bool
deriving Repr, DecidableEq


/-- Go close(ch): a runtime fault when the channel is already closed,
modelled as none. -/
def closeChan (c : PacketChan) : Option PacketChan :=
  if c.isClosed then none else some { c with isClosed := true }


/-- Outcome of a Go channel send. -/
inductive SendResult where
  | fault
  | wouldBlock
  | sent (c : PacketChan)
deriving Repr, DecidableEq


/-- Go ch <- p on the capacity-10 buffered channel: a runtime fault when the
channel is closed, suspension when the buffer is full. -/
def sendChan (c : PacketChan) (p : Packet) : SendResult :=
  if c.isClosed then .fault
  else if 10 ≤ c.buf.length then .wouldBlock
  else .sent { c with buf := c.buf ++ [p] }


/-- OpusPCMReceiver.Close: close(r.Ch). -/
def receiverClose (c : PacketChan) : Option PacketChan := closeChan c


/-- OpusPCMReceiver.ReceivePCMFrame: r.Ch <- packet. -/
def receivePCMFrame (c : PacketChan) (p : Packet) : SendResult := sendChan c p

/-! ## Theorems -/

/-- C1: feeding the digits 5,2,2,2,6,6,3,6 from an empty buffer yields the
password buffer "52226636", with the success prompt scheduled exactly at the
final append; a "#" digit always resets the buffer and schedules nothing;
every other single-character digit is appended with its spoken prompt
scheduled, and the success prompt is scheduled exactly when the resulting
buffer equals the target password. -/
theorem C1_dtmf_machine :
    (dtmfRun "" digitSeq).1 = "52226636" ∧
    (dtmfRun "" digitSeq).2 =
      ["audio/5.mp3", "audio/2.mp3", "audio/2.mp3", "audio/2.mp3", "audio/6.mp3",
        "audio/6.mp3", "audio/3.mp3", "audio/6.mp3", successPrompt] ∧
    (∀ pwd, dtmfStep pwd "#" = ("", [])) ∧
    (∀ pwd d, d ≠ "#" → d.length = 1 →
      (dtmfStep pwd d).1 = pwd ++ d ∧
      ("audio/" ++ d ++ ".mp3") ∈ (dtmfStep pwd d).2 ∧
      (successPrompt ∈ (dtmfStep pwd d).2 ↔ pwd ++ d = targetPassword)) := by
  refine ⟨by decide, by decide, fun pwd => by simp [dtmfStep], fun pwd d hd hlen => ?_⟩
  have hne : ("audio/" ++ d ++ ".mp3") ≠ successPrompt := by
    intro h
    have hl := congrArg String.length h
    rw [String.length_append, String.length_append, hlen] at hl
    revert hl
    decide
  refine ⟨by simp [dtmfStep, hd], by simp [dtmfStep, hd], ?_⟩
  constructor
  · intro hmem
    simp only [dtmfStep, if_neg hd, List.mem_cons] at hmem
    rcases hmem with h | h
    · exact absurd h.symm hne
    · by_cases ht : pwd ++ d = targetPassword
      · exact ht
      · simp [ht] at h
  · intro ht
    simp [dtmfStep, hd, ht]


/-- Witness for C1 at a concrete digit event. -/
theorem C1_dtmf_machine_witness :
    (dtmfStep "5222663" "6").1 = "5222663" ++ "6" ∧
    ("audio/" ++ "6" ++ ".mp3") ∈ (dtmfStep "5222663" "6").2 ∧
    (successPrompt ∈ (dtmfStep "5222663" "6").2 ↔ "5222663" ++ "6" = targetPassword) :=
  C1_dtmf_machine.2.2.2 "5222663" "6" (by decide) (by decide)


/-- C9: every modem event transition leaves the password buffer unchanged,
extends it by exactly one digit at the end, or resets it to the empty string
(digits delivered by the DTMF handler are single characters, extracted by the
regex in extractDTMFDigit). -/
theorem C9_buffer_invariant (pwd : String) (e : ModemEvent)
    (hd : ∀ d, e = ModemEvent.dtmf d → d.length = 1) :
    modemStep pwd e = pwd ∨ modemStep pwd e = "" ∨
    ∃ c : String, c.length = 1 ∧ modemStep pwd e = pwd ++ c := by
  cases e with
  | incomingCall => exact Or.inr (Or.inl rfl)
  | dtmf d =>
    by_cases h : d = "#"
    · exact Or.inr (Or.inl (by simp [modemStep, dtmfStep, h]))
    · exact Or.inr (Or.inr ⟨d, hd d rfl, by simp [modemStep, dtmfStep, h]⟩)


/-- Witness for C9 at a concrete digit event. -/
theorem C9_buffer_invariant_witness :
    modemStep "5222" (ModemEvent.dtmf "6") = "5222" ∨
    modemStep "5222" (ModemEvent.dtmf "6") = "" ∨
    ∃ c : String, c.length = 1 ∧ modemStep "5222" (ModemEvent.dtmf "6") = "5222" ++ c :=
  C9_buffer_invariant "5222" (ModemEvent.dtmf "6")
    (fun d h => by cases h; decide)


/-- C2: well-formed +CLCC lines with 5 or more comma-separated fields parse to
a record whose Direction, Status and Mode follow the documented code tables;
lines with fewer than 5 fields fail with MalformedStatusLine; the documented
example line parses to the documented record. -/
theorem C2_parse_call_status :
    (∀ line parts, parts = goSplit (trimInfoHeader line "+CLCC") ',' →
      (parts.length < 5 → parseCallStatus line = .error .MalformedStatusLine) ∧
      (∀ i : Int, 5 ≤ parts.length → atoi? (goTrimSpace (fieldAt parts 0)) = some i →
        ∃ c, parseCallStatus line = .ok c ∧ c.Index = i ∧
          (goTrimSpace (fieldAt parts 1) = "0" → c.Direction = "MO") ∧
          (goTrimSpace (fieldAt parts 1) = "1" → c.Direction = "MT") ∧
          (goTrimSpace (fieldAt parts 2) = "0" → c.Status = "ACTIVE") ∧
          (goTrimSpace (fieldAt parts 2) = "1" → c.Status = "HELD") ∧
          (goTrimSpace (fieldAt parts 2) = "2" → c.Status = "DIALING") ∧
          (goTrimSpace (fieldAt parts 2) = "3" → c.Status = "ALERTING") ∧
          (goTrimSpace (fieldAt parts 2) = "4" → c.Status = "INCOMING") ∧
          (goTrimSpace (fieldAt parts 2) = "5" → c.Status = "WAITING") ∧
          (goTrimSpace (fieldAt parts 3) = "0" → c.Mode = "VOICE") ∧
          (goTrimSpace (fieldAt parts 3) = "1" → c.Mode = "DATA") ∧
          (goTrimSpace (fieldAt parts 3) = "2" → c.Mode = "FAX"))) ∧
    parseCallStatus "+CLCC: 1,1,4,0,0,\"+15551234567\",129" =
      .ok { Index := 1, Direction := "MT", Status := "INCOMING", Mode := "VOICE",
            Number := "+15551234567", NumType := "129" } := by
  constructor
  · intro line parts hp
    subst hp
    refine ⟨fun hlt => ?_, fun i hge hi => ?_⟩
    · simp only [parseCallStatus]
      rw [if_pos hlt]
    · simp only [parseCallStatus]
      rw [if_neg (by omega), hi]
      refine ⟨_, rfl, rfl, ?_, ?_, ?_, ?_, ?_, ?_, ?_, ?_, ?_, ?_, ?_⟩ <;>
        (intro h; rw [h]; simp)
  · rfl


/-- Witness for C2: a line with fewer than 5 fields is rejected as malformed,
and a full line parses with the documented code tables. -/
theorem C2_parse_call_status_witness :
    parseCallStatus "+CLCC: 1,2" = .error .MalformedStatusLine ∧
    ∃ c, parseCallStatus "+CLCC: 2,0,3,1,0" = .ok c ∧ c.Index = 2 ∧
      c.Direction = "MO" ∧ c.Status = "ALERTING" ∧ c.Mode = "DATA" := by
  have h1 := (C2_parse_call_status.1 "+CLCC: 1,2" _ rfl).1 (by decide)
  have h2 := (C2_parse_call_status.1 "+CLCC: 2,0,3,1,0" _ rfl).2 2 (by decide) (by decide)
  obtain ⟨c, hc, hidx, hdir0, _, _, _, _, hst3, _, _, _, hmode1, _⟩ := h2
  exact ⟨h1, c, hc, hidx, hdir0 (by decide), hst3 (by decide), hmode1 (by decide)⟩


/-- C8: on a line with 5 or more fields and a numeric index, unrecognized
direction, status or mode codes do not make parsing fail: the corresponding
field is set to the UNKNOWN sentinel. -/
theorem C8_unknown_codes (line : String) (parts : List String) (i : Int)
    (hp : parts = goSplit (trimInfoHeader line "+CLCC") ',')
    (hge : 5 ≤ parts.length)
    (hi : atoi? (goTrimSpace (fieldAt parts 0)) = some i) :
    ∃ c, parseCallStatus line = .ok c ∧
      (goTrimSpace (fieldAt parts 1) ∉ (["0", "1"] : List String) →
        c.Direction = "UNKNOWN") ∧
      (goTrimSpace (fieldAt parts 2) ∉ (["0", "1", "2", "3", "4", "5"] : List String) →
        c.Status = "UNKNOWN") ∧
      (goTrimSpace (fieldAt parts 3) ∉ (["0", "1", "2"] : List String) →
        c.Mode = "UNKNOWN") := by
  subst hp
  simp only [parseCallStatus]
  rw [if_neg (by omega), hi]
  refine ⟨_, rfl, ?_, ?_, ?_⟩
  · intro h
    simp only [List.mem_cons, List.not_mem_nil, or_false, not_or] at h
    obtain ⟨h0, h1⟩ := h
    simp only [if_neg h0, if_neg h1]
  · intro h
    simp only [List.mem_cons, List.not_mem_nil, or_false, not_or] at h
    obtain ⟨h0, h1, h2, h3, h4, h5⟩ := h
    simp only [if_neg h0, if_neg h1, if_neg h2, if_neg h3, if_neg h4, if_neg h5]
  · intro h
    simp only [List.mem_cons, List.not_mem_nil, or_false, not_or] at h
    obtain ⟨h0, h1, h2⟩ := h
    simp only [if_neg h0, if_neg h1, if_neg h2]


/-- Witness for C8: unrecognized codes 9,9,9 parse successfully with UNKNOWN
fields. -/
theorem C8_unknown_codes_witness :
    ∃ c, parseCallStatus "+CLCC: 7,9,9,9,0" = .ok c ∧
      (goTrimSpace (fieldAt (goSplit (trimInfoHeader "+CLCC: 7,9,9,9,0" "+CLCC") ',') 1) ∉
        (["0", "1"] : List String) → c.Direction = "UNKNOWN") ∧
      (goTrimSpace (fieldAt (goSplit (trimInfoHeader "+CLCC: 7,9,9,9,0" "+CLCC") ',') 2) ∉
        (["0", "1", "2", "3", "4", "5"] : List String) → c.Status = "UNKNOWN") ∧
      (goTrimSpace (fieldAt (goSplit (trimInfoHeader "+CLCC: 7,9,9,9,0" "+CLCC") ',') 3) ∉
        (["0", "1", "2"] : List String) → c.Mode = "UNKNOWN") :=
  C8_unknown_codes "+CLCC: 7,9,9,9,0" _ 7 rfl (by decide) (by decide)


/-- C6 counterexample: a decode failure is not fatal — with a single asset
whose decode fails, initialization completes (result is not none) and the
cache is empty, so the asset is silently missing. -/
theorem C6_decode_failure_not_fatal_counterexample :
    loadAllAudio (some [⟨"beep.mp3", false⟩]) (fun _ => (none : Option Nat)) = some [] ∧
    loadAllAudio (some [⟨"beep.mp3", false⟩]) (fun _ => (none : Option Nat)) ≠ none := by
  refine ⟨rfl, ?_⟩
  intro h
  rw [show (loadAllAudio (some [⟨"beep.mp3", false⟩]) fun _ => (none : Option Nat)) =
      some [] from rfl] at h
  exact Option.noConfusion h


/-- C6 (amended): only a failure to read the audio directory is fatal; a
decode failure of an individual asset is logged and skipped, and
initialization completes with the cache holding exactly the successfully
decoded non-directory assets. -/
theorem C6_prompt_cache_loading {α : Type} (entries : List DirEntry)
    (decode : String → Option α) :
    loadAllAudio none decode = none ∧
    ∃ cache, loadAllAudio (some entries) decode = some cache ∧
      ∀ p a, (p, a) ∈ cache ↔
        ∃ e, e ∈ entries ∧ e.isDir = false ∧ p = "audio/" ++ e.name ∧ decode p = some a := by
  refine ⟨rfl, _, rfl, fun p a => ?_⟩
  simp only [List.mem_filterMap, List.mem_filter, Option.map_eq_some']
  constructor
  · rintro ⟨e, ⟨he, hdir⟩, b, hb, heq⟩
    cases heq
    exact ⟨e, he, by simpa using hdir, rfl, hb⟩
  · rintro ⟨e, he, hdir, rfl, hdec⟩
    exact ⟨e, ⟨he, by simp [hdir]⟩, a, hdec, rfl⟩


/-- Witness for C6 (amended) at a concrete directory listing. -/
theorem C6_prompt_cache_loading_witness :
    loadAllAudio none (fun p => if p = "audio/1.mp3" then some 7 else none) = none ∧
    ∃ cache, loadAllAudio (some [⟨"1.mp3", false⟩, ⟨"sub", true⟩, ⟨"2.mp3", false⟩])
        (fun p => if p = "audio/1.mp3" then some 7 else none) = some cache ∧
      ∀ p a, (p, a) ∈ cache ↔
        ∃ e, e ∈ ([⟨"1.mp3", false⟩, ⟨"sub", true⟩, ⟨"2.mp3", false⟩] : List DirEntry) ∧
          e.isDir = false ∧ p = "audio/" ++ e.name ∧
          (if p = "audio/1.mp3" then some 7 else none) = some a :=
  C6_prompt_cache_loading [⟨"1.mp3", false⟩, ⟨"sub", true⟩, ⟨"2.mp3", false⟩]
    (fun p => if p = "audio/1.mp3" then some 7 else none)


/-- C7 counterexample: with the empty number, StartCall still issues the dial
command "D;" to the transport and succeeds when the transport accepts it —
there is no InvalidNumber failure and no command is withheld.  The second
conjunct observes, via a transport that echoes the issued command inside its
error, that the dial command issued for the empty number is exactly "D;". -/
theorem C7_no_number_validation_counterexample :
    StartCall (fun _ => .ok []) "" = .ok () ∧
    StartCall (fun c => .error (.ModemCommandError c)) "" =
      .error (.ModemCommandError "D;") := by
  exact ⟨rfl, rfl⟩


/-- C7 (amended): StartCall performs no validation of the number — for every
number, including the empty string, it issues the dial command D<number>; and
fails exactly when the transport rejects that command, surfacing the modem
command error unchanged. -/
theorem C7_start_call (command : String → Except ATError (List String)) (number : String) :
    (∀ e, command (dialCommand number) = .error e → StartCall command number = .error e) ∧
    (∀ r, command (dialCommand number) = .ok r → StartCall command number = .ok ()) := by
  constructor
  · intro e he
    simp [StartCall, he]
  · intro r hr
    simp [StartCall, hr]


/-- Witness for C7 (amended) at a concrete rejecting transport. -/
theorem C7_start_call_witness :
    StartCall (fun _ => .error (.ModemCommandError "NO CARRIER")) "+15551234567" =
      .error (.ModemCommandError "NO CARRIER") :=
  (C7_start_call (fun _ => .error (.ModemCommandError "NO CARRIER")) "+15551234567").1
    (.ModemCommandError "NO CARRIER") rfl


/-- C5 counterexample: closing twice is not error-free on two of the three
legs — the streamer's second Close returns ErrAlreadyClosed, and the
receiver's second Close is a runtime fault (close of a closed channel). -/
theorem C5_close_idempotence_counterexample :
    (PCMStreamer.Close (NewPCMStreamer 0)).bind PCMStreamer.Close =
      .error .ErrAlreadyClosed ∧
    (receiverClose ⟨[], false⟩).bind receiverClose = none := by
  exact ⟨rfl, rfl⟩


/-- C5 (amended): Player.Stop is idempotent and error-free; PCMStreamer.Close
on an already-closed streamer returns ErrAlreadyClosed (and a closed streamer
emits nothing: Stream returns 0,false); the receiver's Close on an
already-closed channel faults, and a frame delivered after close faults
rather than being accepted. -/
theorem C5_close_semantics (p : Player) (s : PCMStreamer) (c : PacketChan)
    (pk : Packet) (q : List Packet) (sig : Bool) (n : Nat) :
    Player.Stop (Player.Stop p) = Player.Stop p ∧
    (s.closed = true →
      PCMStreamer.Close s = .error .ErrAlreadyClosed ∧
      PCMStreamer.Stream s q sig n = .ret [] false s q) ∧
    (c.isClosed = true →
      receiverClose c = none ∧ receivePCMFrame c pk = .fault) := by
  refine ⟨?_, fun hs => ⟨?_, ?_⟩, fun hc => ⟨?_, ?_⟩⟩
  · by_cases h : p.cmdActive <;> simp [Player.Stop, h]
  · simp [PCMStreamer.Close, hs]
  · simp [PCMStreamer.Stream, hs]
  · simp [receiverClose, closeChan, hc]
  · simp [receivePCMFrame, sendChan, hc]


/-- Witness for C5 (amended) at concrete closed states. -/
theorem C5_close_semantics_witness :
    Player.Stop (Player.Stop ⟨true, true, false⟩) = Player.Stop ⟨true, true, false⟩ ∧
    (PCMStreamer.Close { NewPCMStreamer 0 with closed := true } =
        .error .ErrAlreadyClosed ∧
      PCMStreamer.Stream { NewPCMStreamer 0 with closed := true } [] false 960 =
        .ret [] false { NewPCMStreamer 0 with closed := true } []) ∧
    (receiverClose ⟨[], true⟩ = none ∧ receivePCMFrame ⟨[], true⟩ ⟨[0, 0]⟩ = .fault) := by
  have h := C5_close_semantics ⟨true, true, false⟩ { NewPCMStreamer 0 with closed := true }
    ⟨[], true⟩ ⟨[0, 0]⟩ [] false 960
  exact ⟨h.1, h.2.1 rfl, h.2.2 rfl⟩


/-- C4: the streamer returned by Reopen is exactly a fresh streamer over the
same upstream packet channel (sharing the silence packet), with an empty
internal buffer and a zero read cursor; consequently the replacement's
streaming behaviour is independent of whatever was buffered but not yet
consumed in the old streamer, so no stale sample can ever be emitted — the
first frames pulled post-reopen are computed only from packets taken from the
shared feed. -/
theorem C4_reopen_fresh (s : PCMStreamer) :
    PCMStreamer.Reopen s = { NewPCMStreamer s.packetsId with silence := s.silence } ∧
    (PCMStreamer.Reopen s).packetsId = s.packetsId ∧
    (PCMStreamer.Reopen s).pcm = [] ∧
    (PCMStreamer.Reopen s).pcmIdx = 0 ∧
    (∀ pcm' idx' lf fl cl (q : List Packet) (sig : Bool) (n : Nat),
      PCMStreamer.Stream
        (PCMStreamer.Reopen
          { s with pcm := pcm', pcmIdx := idx', lastFrame := lf,
                   fadeLevel := fl, closed := cl }) q sig n =
      PCMStreamer.Stream (PCMStreamer.Reopen s) q sig n) :=
  ⟨rfl, rfl, rfl, rfl, fun _ _ _ _ _ _ _ _ => rfl⟩


/-- C3 counterexample: with the internal buffer empty, no packet available in
the pull cycle and no close signalled, Stream does not return the requested
samples — it suspends on the packet channel (no concealment output is
produced). -/
theorem C3_stream_blocks_counterexample :
    PCMStreamer.Stream (NewPCMStreamer 0) [] false 1 = .blocked := rfl


/-- C3 (amended): when the internal buffer is exhausted, no packet is
available during the pull and close has not been signalled, Stream blocks
waiting on the packet channel instead of synthesizing concealment output;
the concealment state (lastFrame, fadeLevel) is maintained but never used to
fill the requested samples. -/
theorem C3_stream_blocks_on_stall (s : PCMStreamer) (need : Nat)
    (hopen : s.closed = false) (hexh : s.pcm.length ≤ s.pcmIdx) (hneed : 0 < need) :
    PCMStreamer.Stream s [] false need = .blocked := by
  obtain ⟨k, rfl⟩ : ∃ k, need = k + 1 := ⟨need - 1, by omega⟩
  have hidx : ¬ s.pcmIdx < s.pcm.length := by omega
  have hloop : streamLoop s.pcm s.pcmIdx [] false (k + 1) = .blocked := by
    simp [streamLoop, copyLoop, hidx]
  by_cases hf : s.fadeLevel = 0 <;>
    simp [PCMStreamer.Stream, hopen, hf, hloop]


/-- Witness for C3 (amended) at a fresh streamer. -/
theorem C3_stream_blocks_on_stall_witness :
    PCMStreamer.Stream (NewPCMStreamer 7) [] false 960 = .blocked :=
  C3_stream_blocks_on_stall (NewPCMStreamer 7) 960 rfl (by decide) (by decide)


lemma streamLoop_nil (pcm : List Int) (idx : Nat) (sig : Bool) (need : Nat) :
    streamLoop pcm idx [] sig need =
      match copyLoop pcm idx need with
      | none => .oob
      | some (out, idx') =>
        if out.length = need then .done out pcm idx' [] false
        else if sig then .closedRet out pcm idx' false else .blocked := by
  conv_lhs => rw [streamLoop]


lemma streamLoop_cons (pcm : List Int) (idx : Nat) (p : Packet) (rest : List Packet)
    (sig : Bool) (need : Nat) :
    streamLoop pcm idx (p :: rest) sig need =
      match copyLoop pcm idx need with
      | none => .oob
      | some (out, idx') =>
        if out.length = need then .done out pcm idx' (p :: rest) false
        else
          match streamLoop p.PCM 0 rest sig (need - out.length) with
          | .oob => .oob
          | .blocked => .blocked
          | .closedRet out2 pcm2 idx2 _ => .closedRet (out ++ out2) pcm2 idx2 true
          | .done out2 pcm2 idx2 q2 _ => .done (out ++ out2) pcm2 idx2 q2 true := by
  conv_lhs => rw [streamLoop]


lemma copyLoop_even (l : List Int) (hl : l.length % 2 = 0) :
    ∀ count idx, idx % 2 = 0 →
      ∃ out idx', copyLoop l idx count = some (out, idx') ∧ idx' % 2 = 0 := by
  intro count
  induction count with
  | zero => intro idx hidx; exact ⟨[], idx, rfl, hidx⟩
  | succ k ih =>
    intro idx hidx
    by_cases h : idx < l.length
    · have h1 : idx + 1 < l.length := by omega
      obtain ⟨out, idx', heq, hp⟩ := ih (idx + 2) (by omega)
      exact ⟨((l[idx] : ℚ) / 32767, (l[idx + 1] : ℚ) / 32767) :: out, idx',
        by simp [copyLoop, h, List.getElem?_eq_getElem h, List.getElem?_eq_getElem h1, heq],
        hp⟩
    · exact ⟨[], idx, by simp [copyLoop, h], hidx⟩


lemma copyLoop_odd : ∀ (m : Nat) (l : List Int) (idx count : Nat),
    l.length = idx + 2 * m + 1 → m + 1 ≤ count → copyLoop l idx count = none := by
  intro m
  induction m with
  | zero =>
    intro l idx count hlen hc
    obtain ⟨k, rfl⟩ : ∃ k, count = k + 1 := ⟨count - 1, by omega⟩
    have h : idx < l.length := by omega
    have h1 : l[idx + 1]? = none := List.getElem?_eq_none (by omega)
    simp [copyLoop, h, List.getElem?_eq_getElem h, h1]
  | succ m ih =>
    intro l idx count hlen hc
    obtain ⟨k, rfl⟩ : ∃ k, count = k + 1 := ⟨count - 1, by omega⟩
    have h : idx < l.length := by omega
    have h1 : idx + 1 < l.length := by omega
    have hrec := ih l (idx + 2) k (by omega) (by omega)
    simp [copyLoop, h, List.getElem?_eq_getElem h, List.getElem?_eq_getElem h1, hrec]


lemma streamLoop_no_oob : ∀ (queue : List Packet), (∀ p ∈ queue, p.PCM.length % 2 = 0) →
    ∀ pcm idx sig need, pcm.length % 2 = 0 → idx % 2 = 0 →
      streamLoop pcm idx queue sig need ≠ LoopRes.oob := by
  intro queue
  induction queue with
  | nil =>
    intro _ pcm idx sig need hl hidx
    obtain ⟨out, idx', heq, _⟩ := copyLoop_even pcm hl need idx hidx
    simp only [streamLoop_nil, heq]
    by_cases hlen : out.length = need
    · rw [if_pos hlen]
      exact fun hcontr => LoopRes.noConfusion hcontr
    · rw [if_neg hlen]
      cases sig
      · exact fun hcontr => LoopRes.noConfusion hcontr
      · exact fun hcontr => LoopRes.noConfusion hcontr
  | cons p rest ih =>
    intro hq pcm idx sig need hl hidx
    obtain ⟨out, idx', heq, _⟩ := copyLoop_even pcm hl need idx hidx
    simp only [streamLoop_cons, heq]
    by_cases hlen : out.length = need
    · rw [if_pos hlen]
      exact fun hcontr => LoopRes.noConfusion hcontr
    · have hrec := ih (fun x hx => hq x (List.mem_cons_of_mem _ hx)) p.PCM 0 sig
        (need - out.length) (hq p (List.mem_cons_self _ _)) (by omega)
      rw [if_neg hlen]
      cases hrl : streamLoop p.PCM 0 rest sig (need - out.length) with
      | oob => exact absurd hrl hrec
      | blocked => exact fun hcontr => LoopRes.noConfusion hcontr
      | closedRet a b c d => exact fun hcontr => LoopRes.noConfusion hcontr
      | done a b c d e => exact fun hcontr => LoopRes.noConfusion hcontr


theorem C10_even_packet_indexing :
    (∀ (queue : List Packet) (s : PCMStreamer) (sig : Bool) (need : Nat),
      (∀ p ∈ queue, p.PCM.length % 2 = 0) → s.pcm.length % 2 = 0 → s.pcmIdx % 2 = 0 →
      PCMStreamer.Stream s queue sig need ≠ .oob) ∧
    (∀ l : List Int, l.length % 2 = 1 →
      PCMStreamer.Stream (NewPCMStreamer 0) [Packet.mk l] false (l.length / 2 + 1) =
        .oob) := by
  constructor
  · intro queue s sig need hq hl hidx
    by_cases hc : s.closed
    · simp [PCMStreamer.Stream, hc]
    · have hloop := streamLoop_no_oob queue hq s.pcm s.pcmIdx sig need hl hidx
      by_cases hf : s.fadeLevel = 0
      all_goals
        cases hrl : streamLoop s.pcm s.pcmIdx queue sig need with
        | oob => exact absurd hrl hloop
        | blocked => simp [PCMStreamer.Stream, hc, hf, hrl]
        | closedRet a b c d => simp [PCMStreamer.Stream, hc, hf, hrl]
        | done a b c d e => simp [PCMStreamer.Stream, hc, hf, hrl]
  · intro l hodd
    have hcl : copyLoop l 0 (l.length / 2 + 1) = none :=
      copyLoop_odd (l.length / 2) l 0 (l.length / 2 + 1) (by omega) (by omega)
    have hne : ¬((0 : Nat) = l.length / 2 + 1) := by omega
    have hmain : streamLoop [] 0 [Packet.mk l] false (l.length / 2 + 1) = .oob := by
      simp only [streamLoop_cons, streamLoop_nil, copyLoop, hcl, List.length_nil,
        Nat.sub_zero, hne]
      simp [hne, hcl]
    simp [PCMStreamer.Stream, NewPCMStreamer, hmain]


theorem C10_even_packet_indexing_witness :
    PCMStreamer.Stream (NewPCMStreamer 0) [Packet.mk [3, 4]] false 1 ≠ .oob ∧
    PCMStreamer.Stream (NewPCMStreamer 0) [Packet.mk [3]] false 1 = .oob :=
  ⟨C10_even_packet_indexing.1 [Packet.mk [3, 4]] (NewPCMStreamer 0) false 1
     (by decide) (by decide) (by decide),
   C10_even_packet_indexing.2 [3] (by decide)⟩

end Golte
